import Mathlib

/-! Shallow embedding of the badge compositor of the popup quest bot
(`badge_generator.generate_quest_badge`) and of the icon catalog
(`icon_provider.get_icon_by_category`), together with models of the Python
primitives they use: `str.split`, `int(str)`, `hash(s) % 1000`,
`f"{n:03d}"`, `str(int)` and `textwrap.wrap`.  Font metrics
(`draw.textlength`, `font.getbbox`) and the filesystem are oracles supplied
through an environment record; Pillow images live in an explicit store so
that in-place mutation (`thumbnail`) is observable. -/

namespace Badge

/-- Python whitespace characters, as recognized by `str.split`, `str.strip`
and `textwrap` (space, tab, newline, carriage return, vertical tab, form feed). -/
def isPyWsB (c : Char) : Bool :=
  c = ' ' || c = '\t' || c = '\n' || c = '\r' || c = '\x0b' || c = '\x0c'

/-- Accumulator-based worker for `pySplitWs`: `acc` holds the reversed
characters of the word currently being scanned. -/
def pySplitAux : List Char → List Char → List String
  | [], acc => if acc.isEmpty then [] else [String.mk acc.reverse]
  | c :: cs, acc =>
    if isPyWsB c then
      if acc.isEmpty then pySplitAux cs [] else String.mk acc.reverse :: pySplitAux cs []
    else pySplitAux cs (c :: acc)

/-- Model of Python `s.split()` with no argument: maximal runs of
non-whitespace characters, empty strings never produced. -/
def pySplitWs (s : String) : List String :=
  pySplitAux s.data []

/-- Model of Python `sep.join(list)`. -/
def pyJoin (sep : String) : List String → String
  | [] => ""
  | [w] => w
  | w :: ws => w ++ sep ++ pyJoin sep ws

/-- Decimal digit character for a value below ten. -/
def digitChar (d : ℕ) : Char := Char.ofNat (48 + d)

/-- Fuelled most-significant-first decimal digits of a natural number
(empty output for zero; the fuel is always instantiated with the number
itself, which bounds the digit count). -/
def natDigitsAux : ℕ → ℕ → List Char
  | 0, _ => []
  | _ + 1, 0 => []
  | fuel + 1, n => natDigitsAux fuel (n / 10) ++ [digitChar (n % 10)]

/-- Decimal rendering of a natural number, as Python `str` renders it. -/
def natDigitsStr (n : ℕ) : String :=
  if n = 0 then "0" else String.mk (natDigitsAux n n)

/-- Model of Python `str(n)` for an `int` value. -/
def pyStrInt (n : ℤ) : String :=
  if n < 0 then "-" ++ natDigitsStr n.natAbs else natDigitsStr n.natAbs

/-- Left-pad a digit list with zeros up to width `k`. -/
def pad0 (s : List Char) (k : ℕ) : List Char :=
  List.replicate (k - s.length) '0' ++ s

/-- Model of the Python format `f"{n:03d}"`: minimum total width 3,
zero-filled, the sign counting toward the width. -/
def pyFormat03d (n : ℤ) : String :=
  if n < 0 then String.mk ('-' :: pad0 (natDigitsAux n.natAbs n.natAbs) 2)
  else String.mk (pad0 (natDigitsAux n.natAbs n.natAbs) 3)

/-- Numeric value of a decimal digit character. -/
def digitVal (c : Char) : ℕ := c.toNat - 48

/-- Digits of a Python integer literal after the first, allowing single
underscores strictly between digits (as `int(str)` accepts). -/
def parseDigitsUAux : List Char → ℕ → Option ℕ
  | [], acc => some acc
  | '_' :: c :: cs, acc =>
    if c.isDigit then parseDigitsUAux cs (acc * 10 + digitVal c) else none
  | ['_'], _ => none
  | c :: cs, acc =>
    if c.isDigit then parseDigitsUAux cs (acc * 10 + digitVal c) else none

/-- Nonempty digit run with optional single underscores between digits. -/
def parseDigitsU : List Char → Option ℕ
  | [] => none
  | c :: cs => if c.isDigit then parseDigitsUAux cs (digitVal c) else none

/-- Model of Python `int(s)` on a decimal string: surrounding whitespace is
stripped, an optional sign is accepted, and the digits may contain single
underscore separators; `none` models the `ValueError` the code catches. -/
def pyParseInt (s : String) : Option ℤ :=
  let t := ((s.data.dropWhile isPyWsB).reverse.dropWhile isPyWsB).reverse
  match t with
  | '+' :: rest => (parseDigitsU rest).map (fun n => (n : ℤ))
  | '-' :: rest => (parseDigitsU rest).map (fun n => -(n : ℤ))
  | rest => (parseDigitsU rest).map (fun n => (n : ℤ))

/-- Model of the Python membership test `'-' in quest_id`. -/
def hasHyphen (s : String) : Bool := s.data.contains '-'

/-! Model of `textwrap.wrap(text, width=28)` with the default options the
code relies on (`expand_tabs`, `replace_whitespace`, `drop_whitespace`,
`break_long_words`).  Chunk splitting at hyphens (`break_on_hyphens`) is not
modelled; it can only move line-break positions inside hyphenated words and
is irrelevant to the properties proved here. -/

/-- Model of `str.expandtabs()` with tab size 8; the column resets after a
newline or carriage return, as in Python. -/
def expandTabsAux : List Char → ℕ → List Char
  | [], _ => []
  | '\t' :: cs, col => List.replicate (8 - col % 8) ' ' ++ expandTabsAux cs (col + (8 - col % 8))
  | '\n' :: cs, _ => '\n' :: expandTabsAux cs 0
  | '\r' :: cs, _ => '\r' :: expandTabsAux cs 0
  | c :: cs, col => c :: expandTabsAux cs (col + 1)

/-- The `replace_whitespace` step: every whitespace character becomes a
plain space. -/
def replaceWs (cs : List Char) : List Char :=
  cs.map (fun c => if isPyWsB c then ' ' else c)

/-- Maximal runs of whitespace / non-whitespace characters, the chunk list
`textwrap` feeds to its line filler.  `acc` is the reversed current run and
`ws` records whether that run is whitespace. -/
def runsAux : List Char → List Char → Bool → List String
  | [], acc, _ => if acc.isEmpty then [] else [String.mk acc.reverse]
  | c :: cs, acc, ws =>
    if acc.isEmpty then runsAux cs [c] (isPyWsB c)
    else if isPyWsB c = ws then runsAux cs (c :: acc) ws
    else String.mk acc.reverse :: runsAux cs [c] (isPyWsB c)

/-- Chunks of a text after tab expansion and whitespace replacement. -/
def pyChunks (s : String) : List String :=
  runsAux (replaceWs (expandTabsAux s.data 0)) [] false

/-- A chunk whose characters are all whitespace (Python `c.strip() == ""`). -/
def isWsChunk (c : String) : Bool := c.data.all isPyWsB

/-- Greedy filler of one line: consume chunks while the accumulated length
stays within `width`, returning the consumed chunks and the remainder. -/
def greedyTake (width : ℕ) : ℕ → List String → List String × List String
  | _, [] => ([], [])
  | curLen, c :: cs =>
    if curLen + c.length ≤ width then
      let p := greedyTake width (curLen + c.length) cs
      (c :: p.1, p.2)
    else ([], c :: cs)

/-- Drop a trailing whitespace chunk from a finished line (the
`drop_whitespace` behaviour of `textwrap`). -/
def dropLastWs (cs : List String) : List String :=
  match cs.getLast? with
  | some l => if isWsChunk l then cs.dropLast else cs
  | none => cs

/-- Concatenation of the chunks of one line (`"".join(cur_line)`). -/
def strJoin (cs : List String) : String :=
  String.mk (cs.map String.data).flatten

/-- Total character count of a chunk list (`sum(map(len, cur_line))`). -/
def sumLen (cs : List String) : ℕ := (cs.map String.length).sum

/-- The `_handle_long_word` step of `textwrap`: when the next chunk is
longer than the full width, break it at the space left on the current line
(at least one character when the width is degenerate). -/
def handleLong (width : ℕ) (p : List String × List String) : List String × List String :=
  match p.2 with
  | [] => (p.1, [])
  | r0 :: rs =>
    if width < r0.length then
      let spaceLeft := if width < 1 then 1 else width - sumLen p.1
      (p.1 ++ [String.mk (r0.data.take spaceLeft)], String.mk (r0.data.drop spaceLeft) :: rs)
    else (p.1, r0 :: rs)

/-- One iteration of the `textwrap` outer loop: possibly drop a leading
whitespace chunk (only once some line exists), fill a line greedily, break
a chunk longer than the width, drop trailing whitespace, and emit the line
if nonempty.  Returns the emitted line and the remaining chunks. -/
def wrapStep (width : ℕ) (hasLines : Bool) (chunks : List String) : Option String × List String :=
  match chunks with
  | [] => (none, [])
  | c0 :: rest0 =>
    let chunks1 := if hasLines && isWsChunk c0 then rest0 else c0 :: rest0
    let q := handleLong width (greedyTake width 0 chunks1)
    let taken := dropLastWs q.1
    (if taken.isEmpty then none else some (strJoin taken), q.2)

/-- Fuelled iteration of `wrapStep`.  Every step strictly decreases the
total chunk character count plus the chunk count, so the fuel chosen by
`pyTextwrap` (that measure plus one) is never exhausted. -/
def wrapAuxF (width : ℕ) : ℕ → Bool → List String → List String
  | 0, _, _ => []
  | _ + 1, _, [] => []
  | fuel + 1, hasLines, c :: cs =>
    let st := wrapStep width hasLines (c :: cs)
    match st.1 with
    | some l => l :: wrapAuxF width fuel true st.2
    | none => wrapAuxF width fuel hasLines st.2

/-- Model of `textwrap.wrap(s, width)` with the default options. -/
def pyTextwrap (width : ℕ) (s : String) : List String :=
  let chunks := pyChunks s
  wrapAuxF width (sumLen chunks + chunks.length + 1) false chunks

/-! Layout helpers of `generate_quest_badge`. -/

/-- Greedy pixel-measured word wrap of the title (the loop at
`badge_generator.py` lines 283-295): `cur` is the current line, the
remaining words are folded in one by one. -/
def wrapGreedy (meas : String → ℚ) (limit : ℚ) : String → List String → List String
  | cur, [] => [cur]
  | cur, w :: ws =>
    let test := cur ++ " " ++ w
    if meas test ≤ limit then wrapGreedy meas limit test ws
    else cur :: wrapGreedy meas limit w ws

/-- Pixel-measured word wrap of the action value (the loop at
`badge_generator.py` lines 361-379): when the current line is empty and the
word alone does not fit, the word is truncated to its first ten characters
plus an ellipsis and the loop breaks, dropping all remaining words. -/
def wrapActionAux (meas : String → ℚ) (maxw : ℚ) : List String → String → List String
  | [], cur => if cur = "" then [] else [cur]
  | w :: ws, cur =>
    let test := if cur = "" then w else cur ++ " " ++ w
    if meas test ≤ maxw then wrapActionAux meas maxw ws test
    else if cur = "" then [String.mk (w.data.take 10) ++ "..."]
    else cur :: wrapActionAux meas maxw ws w

/-- Action wrap entry point (`current_line` starts empty in the code). -/
def wrapAction (meas : String → ℚ) (maxw : ℚ) (words : List String) : List String :=
  wrapActionAux meas maxw words ""

/-- Pair each line with a y coordinate, starting at `y` and advancing by
`step` per drawn line (the drawing loops of the code). -/
def linesWithYs : List String → ℚ → ℚ → List (String × ℚ)
  | [], _, _ => []
  | l :: ls, y, step => (l, y) :: linesWithYs ls (y + step) step

/-! Data model. -/

/-- A font as the code loads it: `ImageFont.truetype(path, size)`. -/
structure FontSpec where
  path : String
  size : ℕ
deriving DecidableEq, Repr

def titleFont : FontSpec := ⟨"fonts/Montserrat-Bold.ttf", 50⟩

def logoFont : FontSpec := ⟨"fonts/Montserrat-ExtraBold.ttf", 65⟩

def headerFont : FontSpec := ⟨"fonts/Montserrat-Bold.ttf", 32⟩

def bodyFont : FontSpec := ⟨"fonts/Montserrat-Medium.ttf", 26⟩

def smallFont : FontSpec := ⟨"fonts/Montserrat-Medium.ttf", 24⟩

def pointsFont : FontSpec := ⟨"fonts/Montserrat-Bold.ttf", 80⟩

/-- The six fonts `generate_quest_badge` loads inside its inner `try`. -/
def fontSpecs : List FontSpec :=
  [titleFont, logoFont, headerFont, bodyFont, smallFont, pointsFont]

/-- A Pillow image, abstracted: mode string, pixel dimensions and an opaque
pixel-content identifier. -/
structure PILImage where
  mode : String
  w : ℕ
  h : ℕ
  px : ℕ
deriving DecidableEq, Repr

/-- The heap of Pillow images; references are list indices, `Image.copy`
and `Image.convert` append fresh images, `thumbnail` mutates in place. -/
abbrev Store := List PILImage

/-- Environment of one `generate_quest_badge` call: the font-metric oracles
of Pillow, the process hash seed behaviour of `hash`, and the failure
switches of the fallible external steps. -/
structure Env where
  textlength : FontSpec → String → ℚ
  bboxHeight : FontSpec → String → ℚ
  pyHash : String → ℤ
  fontLoads : FontSpec → Bool
  supabaseEnabled : Bool
  supabaseRaises : Bool
  saveRaises : Bool
  iconRaises : Bool

/-- All six required fonts load (the inner `try` at lines 254-263 succeeds). -/
def fontsOk (env : Env) : Bool := fontSpecs.all env.fontLoads

/-- The `quest_id` argument: the code accepts either an `int` or a `str`. -/
inductive QuestId where
  | int (n : ℤ)
  | str (s : String)
deriving DecidableEq, Repr

/-- Python truthiness of `quest_id` in `if supabase_client and quest_id:`. -/
def questIdTruthy : QuestId → Bool
  | .int n => n ≠ 0
  | .str s => s ≠ ""

/-- The arguments of `generate_quest_badge`; the icon is a store reference. -/
structure Args where
  title : String
  description : String
  action : String
  deadline : String
  quest_id : QuestId
  points : ℤ
  icon_image : Option ℕ
deriving Repr

/-- Exceptions the embedded pipeline can raise internally; the function
itself converts all of them to a `none` result. -/
inductive PyExn where
  | ioError
  | indexError
  | generic
deriving DecidableEq, Repr

/-- Everything the successful pipeline draws or computes that the claims
talk about: the derived id and its tag, the laid-out text lines with their
y coordinates, the info-section geometry and the points pill geometry. -/
structure Render where
  displayId : ℤ
  idText : String
  titleLines : List (String × ℚ)
  descText : String
  descStartY : ℚ
  descLines : List (String × ℚ)
  infoY : ℚ
  actionX : ℚ
  actionYOffset : ℚ
  actionLines : List (String × ℚ)
  maxActionWidth : ℚ
  deadlineY : ℚ
  pointsText : String
  buttonWidth : ℚ
  buttonHeight : ℚ
  buttonX : ℚ
  buttonY : ℚ
  icon : Option (ℚ × ℚ)
deriving DecidableEq, Repr

/-! The embedding of `generate_quest_badge` (badge_generator.py 205-536). -/

/-- Lines 234-246: derivation of `display_id` from `quest_id`.  This runs
before the top-level `try` and is total for the accepted argument types. -/
def deriveDisplayId (env : Env) : QuestId → ℤ
  | .int n => n
  | .str s =>
    if hasHyphen s then env.pyHash s % 1000
    else
      match pyParseInt s with
      | some n => n
      | none => env.pyHash s % 1000

/-- Lines 276-309: the title is cut to its first three words and wrapped
against `width - 300 = 500` when its measured width exceeds that limit; in
the wrap branch `words[0]` raises `IndexError` on an empty word list.
Returns the drawn lines (line pitch `title_font.size - 5 = 45`) and the
starting y of the description block. -/
def titleBlock (env : Env) (title : String) : Except PyExn (List (String × ℚ) × ℚ) :=
  let ws3 := (pySplitWs title).take 3
  let t := pyJoin " " ws3
  if 500 < env.textlength titleFont t then
    match ws3 with
    | [] => .error .indexError
    | w :: rest =>
      let lines := (wrapGreedy (env.textlength titleFont) 500 w rest).take 2
      .ok (linesWithYs lines 160 45, 160 + 45 * (lines.length : ℚ) + 40)
  else .ok ([(t, 160)], 230)

/-- Lines 311-408: description truncation and character wrap, info-section
position, action row with pill-aware wrapping, deadline row, and the points
pill geometry, all after a successful title block. -/
def layoutRest (env : Env) (a : Args) (d : ℤ) (titleLines : List (String × ℚ))
    (descStartY : ℚ) : Render :=
  let dwords := pySplitWs a.description
  let descText := if 10 < dwords.length then pyJoin " " (dwords.take 10) ++ "..." else a.description
  let wrapped := pyTextwrap 28 descText
  let descLines := linesWithYs wrapped descStartY 35
  let descYEnd := descStartY + 35 * (wrapped.length : ℚ)
  let infoY := max (descYEnd + 40) (320 : ℚ)
  let actionX := 40 + env.textlength headerFont "Action:" + 25
  let headerAscent := env.bboxHeight headerFont "Action:" * (3 / 4)
  let bodyAscent := env.bboxHeight bodyFont a.action * (3 / 4)
  let actionYOffset := (headerAscent - bodyAscent) / 2
  let pointsText := pyStrInt a.points
  let buttonWidth := env.textlength pointsFont pointsText + 80
  let buttonX := 800 - buttonWidth - 60
  let maxActionWidth := buttonX - actionX - 30
  let wl := wrapAction (env.textlength bodyFont) maxActionWidth (pySplitWs a.action)
  let wrapNeeded := maxActionWidth < env.textlength bodyFont a.action
  let actionLines :=
    if wrapNeeded then linesWithYs wl (infoY + actionYOffset) (26 * (4 / 5))
    else [(a.action, infoY + actionYOffset)]
  let deadlineY :=
    if wrapNeeded then infoY + actionYOffset + 26 * (4 / 5) * (wl.length : ℚ) + 10
    else infoY + 40
  { displayId := d
    idText := "Quest ID: " ++ pyFormat03d d
    titleLines := titleLines
    descText := descText
    descStartY := descStartY
    descLines := descLines
    infoY := infoY
    actionX := actionX
    actionYOffset := actionYOffset
    actionLines := actionLines
    maxActionWidth := maxActionWidth
    deadlineY := deadlineY
    pointsText := pointsText
    buttonWidth := buttonWidth
    buttonHeight := 70
    buttonX := buttonX
    buttonY := 380
    icon := none }

/-- The text-layout part of the pipeline, fallible only through the title
block. -/
def gqbLayout (env : Env) (a : Args) (d : ℤ) : Except PyExn Render :=
  match titleBlock env a.title with
  | .error e => .error e
  | .ok p => .ok (layoutRest env a d p.1 p.2)

/-- Model of `Image.convert("RGBA")`: a new image in RGBA mode with the
same pixel content. -/
def convertRGBA (img : PILImage) : PILImage := { img with mode := "RGBA" }

/-- Model of the size computed by `Image.thumbnail((t, t))`: never
upscales, fits the bounding square preserving aspect ratio (the rounding
of Pillow is abstracted by integer division). -/
def thumbSize (w h t : ℕ) : ℕ × ℕ :=
  if w ≤ t ∧ h ≤ t then (w, h)
  else if h ≤ w then (t, max 1 (h * t / w)) else (max 1 (w * t / h), t)

/-- Python `int()` on a float value: truncation toward zero. -/
def pyTrunc (q : ℚ) : ℤ := if q < 0 then -(Rat.floor (-q)) else Rat.floor q

/-- Python `//` on floats: floor division, result still a float. -/
def ratFloorDiv (a b : ℚ) : ℚ := (Rat.floor (a / b) : ℤ)

/-- Lines 466-487: the icon block.  The source icon is converted to RGBA
(a fresh image) when needed, copied, and only the copy is resized in place;
any exception is caught and the badge proceeds without an icon. -/
def placeIconBlock (env : Env) (st : Store) (ref : ℕ) (buttonWidth buttonX buttonY : ℚ) :
    Store × Option (ℚ × ℚ) :=
  if env.iconRaises then (st, none)
  else
    match st.get? ref with
    | none => (st, none)
    | some img0 =>
      let target := pyTrunc (buttonWidth * (3 / 2))
      let st1 := if img0.mode = "RGBA" then st else st ++ [convertRGBA img0]
      let img1 := if img0.mode = "RGBA" then img0 else convertRGBA img0
      let ref2 := st1.length
      let st2 := st1 ++ [img1]
      let sz := thumbSize img1.w img1.h target.toNat
      let st3 := st2.set ref2 { img1 with w := sz.1, h := sz.2 }
      let iconX := buttonX + ratFloorDiv buttonWidth 2 - ((Int.fdiv target 2 : ℤ) : ℚ)
      let iconY := buttonY - (target : ℚ) - 20
      (st3, some (iconX, iconY))

/-- The `if icon_image:` guard around the icon block. -/
def iconOutcome (env : Env) (st : Store) (a : Args) (r0 : Render) : Store × Option (ℚ × ℚ) :=
  match a.icon_image with
  | some ref => placeIconBlock env st ref r0.buttonWidth r0.buttonX r0.buttonY
  | none => (st, none)

/-- Lines 489-532: the Supabase upsert (its exceptions caught locally) and
the final `badge.save` into the returned buffer; a raising save propagates
to the top-level handler. -/
def finishResult (env : Env) (a : Args) (r : Render) : Except PyExn (Option Render) :=
  if env.supabaseEnabled && questIdTruthy a.quest_id then
    if env.saveRaises then .error .generic
    else if env.supabaseRaises then .ok (some r)
    else .ok (some r)
  else if env.saveRaises then .error .generic
  else .ok (some r)

/-- The body of the top-level `try` (lines 248-532): font loading with its
own `IOError` handler returning `None`, then layout, icon and save. -/
def gqbBody (env : Env) (st : Store) (a : Args) (d : ℤ) :
    Except PyExn (Option Render) × Store :=
  if fontsOk env = false then (.ok none, st)
  else
    match gqbLayout env a d with
    | .error e => (.error e, st)
    | .ok r0 =>
      let pr := iconOutcome env st a r0
      (finishResult env a { r0 with icon := pr.2 }, pr.1)

/-- The embedding of `generate_quest_badge`: `display_id` is derived before
the `try`, and the `except Exception` at lines 534-536 converts every
escaped exception into a `None` result. -/
def generate_quest_badge (env : Env) (st : Store) (a : Args) :
    Except PyExn (Option Render) × Store :=
  let d := deriveDisplayId env a.quest_id
  match gqbBody env st a d with
  | (.ok r, st') => (.ok r, st')
  | (.error _, st') => (.ok none, st')

/-! The embedding of `icon_provider.get_icon_by_category` (icon_provider.py
60-113).  The filesystem is an oracle mapping a path to a load outcome. -/

/-- Outcome of `os.path.exists` plus `Image.open` on a path: a decoded
image, a missing file, or a raising load. -/
inductive LoadRes where
  | ok (img : PILImage)
  | missing
  | raises
deriving DecidableEq, Repr

/-- A successful load outcome. -/
def LoadRes.isOk : LoadRes → Bool
  | .ok _ => true
  | _ => false

/-- The keys of `ICON_CATEGORIES`, including the `default` meta-category. -/
def categoryKeys : List String :=
  ["Spiritual", "Science & tech", "Literature", "Health & Fitness",
   "Follow your Heart", "Travel & Adventure", "Cinema", "Storytelling",
   "Sports", "Content", "Podcast", "Nature & Wildlife", "Music",
   "Law & Order", "Lifestyle", "Games", "Food", "Design", "Business",
   "default"]

/-- `config.get("filename", category)`: only the `default` entry carries an
explicit filename, `Spiritual`. -/
def filenameBase (c : String) : String := if c = "default" then "Spiritual" else c

/-- The icon file path for a category. -/
def iconPath (c : String) : String :=
  "fonts/Color Symbols/" ++ filenameBase c ++ ".png"

/-- The in-memory `ICON_CACHE`, newest entry first. -/
abbrev IconCache := List (String × PILImage)

/-- Dictionary lookup in the cache. -/
def cacheLookup (cache : IconCache) (k : String) : Option PILImage :=
  (cache.find? (fun p => p.1 = k)).map (fun p => p.2)

/-- The body of `get_icon_by_category` for the `default` category itself,
whose failure cannot fall back further. -/
def get_icon_default (fs : String → LoadRes) (cache : IconCache) :
    Option PILImage × IconCache :=
  match cacheLookup cache "default" with
  | some img => (some img, cache)
  | none =>
    match fs (iconPath "default") with
    | .ok raw => (some (convertRGBA raw), ("default", convertRGBA raw) :: cache)
    | _ => (none, cache)

/-- The embedding of `get_icon_by_category`: an unknown category is
normalized to `default` before the cache check; a missing or raising load
of a non-default category falls back to a fresh `default` lookup; the cache
is populated only after a successful load. -/
def get_icon_by_category (fs : String → LoadRes) (cache : IconCache) (category : String) :
    Option PILImage × IconCache :=
  let c := if categoryKeys.contains category then category else "default"
  match cacheLookup cache c with
  | some img => (some img, cache)
  | none =>
    match fs (iconPath c) with
    | .ok raw => (some (convertRGBA raw), (c, convertRGBA raw) :: cache)
    | _ => if c = "default" then (none, cache) else get_icon_default fs cache

/-- Invariant of the icon cache: every entry sits under a known category
key and holds exactly the RGBA conversion of a successfully loaded file. -/
def WellFormedCache (fs : String → LoadRes) (cache : IconCache) : Prop :=
  ∀ p ∈ cache, p.1 ∈ categoryKeys ∧
    ∃ raw, fs (iconPath p.1) = .ok raw ∧ p.2 = convertRGBA raw

/-- Decidable equality for `Except`, used to evaluate the pipeline on
concrete inputs in witnesses and counterexamples. -/
instance {ε α : Type} [DecidableEq ε] [DecidableEq α] : DecidableEq (Except ε α) := fun x y =>
  match x, y with
  | .ok a, .ok b =>
    if h : a = b then .isTrue (by rw [h]) else .isFalse (fun hc => by cases hc; exact h rfl)
  | .error a, .error b =>
    if h : a = b then .isTrue (by rw [h]) else .isFalse (fun hc => by cases hc; exact h rfl)
  | .ok _, .error _ => .isFalse (fun hc => by cases hc)
  | .error _, .ok _ => .isFalse (fun hc => by cases hc)

/-! Concrete instances used by the witnesses and counterexamples. -/

/-- A benign environment: all fonts load, every measurement is zero, the
hash oracle is constantly zero, no external step raises. -/
def baseEnv : Env where
  textlength := fun _ _ => 0
  bboxHeight := fun _ _ => 0
  pyHash := fun _ => 0
  fontLoads := fun _ => true
  supabaseEnabled := false
  supabaseRaises := false
  saveRaises := false
  iconRaises := false

/-- A small argument set for concrete runs. -/
def argsSimple : Args where
  title := "Hi"
  description := "Yo"
  action := "Go"
  deadline := "D"
  quest_id := QuestId.int 1
  points := 0
  icon_image := none

/-- An environment in which every font fails to load. -/
def envNoFonts : Env := { baseEnv with fontLoads := fun _ => false }

/-- Arguments with the numeric string quest id `"1234"`. -/
def args1234 : Args := { argsSimple with quest_id := QuestId.str "1234" }

/-- The render produced by `generate_quest_badge baseEnv [] args1234`. -/
def render1234 : Render where
  displayId := 1234
  idText := "Quest ID: 1234"
  titleLines := [("Hi", 160)]
  descText := "Yo"
  descStartY := 230
  descLines := [("Yo", 230)]
  infoY := 320
  actionX := 65
  actionYOffset := 0
  actionLines := [("Go", 320)]
  maxActionWidth := 565
  deadlineY := 360
  pointsText := "0"
  buttonWidth := 80
  buttonHeight := 70
  buttonX := 660
  buttonY := 380
  icon := none

/-- Arguments with the non-numeric quest id `"abc"` and points 7. -/
def argsAbc7 : Args := { argsSimple with quest_id := QuestId.str "abc", points := 7 }

/-- Different arguments sharing the quest id `"abc"`. -/
def argsAbc999 : Args where
  title := "Completely Different Words Here"
  description := "Another thing"
  action := "Run"
  deadline := "X"
  quest_id := QuestId.str "abc"
  points := 999
  icon_image := none

/-- The render of `generate_quest_badge baseEnv [] argsAbc7`. -/
def renderAbc7 : Render where
  displayId := 0
  idText := "Quest ID: 000"
  titleLines := [("Hi", 160)]
  descText := "Yo"
  descStartY := 230
  descLines := [("Yo", 230)]
  infoY := 320
  actionX := 65
  actionYOffset := 0
  actionLines := [("Go", 320)]
  maxActionWidth := 565
  deadlineY := 360
  pointsText := "7"
  buttonWidth := 80
  buttonHeight := 70
  buttonX := 660
  buttonY := 380
  icon := none

/-- The render of `generate_quest_badge baseEnv [] argsAbc999`. -/
def renderAbc999 : Render where
  displayId := 0
  idText := "Quest ID: 000"
  titleLines := [("Completely Different Words", 160)]
  descText := "Another thing"
  descStartY := 230
  descLines := [("Another thing", 230)]
  infoY := 320
  actionX := 65
  actionYOffset := 0
  actionLines := [("Run", 320)]
  maxActionWidth := 565
  deadlineY := 360
  pointsText := "999"
  buttonWidth := 80
  buttonHeight := 70
  buttonX := 660
  buttonY := 380
  icon := none

/-- An environment whose measurements are proportional to the character
count and the font size, as a crude but plausible font metric. -/
def envSized : Env := { baseEnv with textlength := fun f s => (f.size : ℚ) * s.length }

/-- Arguments whose title wraps: the first word alone is wider than the
`width - 300` budget under `envSized`. -/
def argsWrapTitle : Args := { argsSimple with title := "Abracadabraa Zz" }

/-- The render of `generate_quest_badge envSized [] argsWrapTitle`. -/
def renderWrapTitle : Render where
  displayId := 1
  idText := "Quest ID: 001"
  titleLines := [("Abracadabraa", 160), ("Zz", 205)]
  descText := "Yo"
  descStartY := 290
  descLines := [("Yo", 290)]
  infoY := 365
  actionX := 289
  actionYOffset := 0
  actionLines := [("Go", 365)]
  maxActionWidth := 261
  deadlineY := 405
  pointsText := "0"
  buttonWidth := 160
  buttonHeight := 70
  buttonX := 580
  buttonY := 380
  icon := none

/-- Arguments with a twelve-word description. -/
def argsLongDesc : Args :=
  { argsSimple with
    description := "one two three four five six seven eight nine ten eleven twelve" }

/-- The render of `generate_quest_badge baseEnv [] argsLongDesc`. -/
def renderLongDesc : Render where
  displayId := 1
  idText := "Quest ID: 001"
  titleLines := [("Hi", 160)]
  descText := "one two three four five six seven eight nine ten..."
  descStartY := 230
  descLines := [("one two three four five six", 230), ("seven eight nine ten...", 265)]
  infoY := 340
  actionX := 65
  actionYOffset := 0
  actionLines := [("Go", 340)]
  maxActionWidth := 565
  deadlineY := 380
  pointsText := "0"
  buttonWidth := 80
  buttonHeight := 70
  buttonX := 660
  buttonY := 380
  icon := none

/-- Arguments with the one-digit points value 9. -/
def argsPts9 : Args := { argsSimple with points := 9 }

/-- Arguments with the three-digit points value 999. -/
def argsPts999 : Args := { argsSimple with points := 999 }

/-- The render of `generate_quest_badge envSized [] argsPts9`. -/
def renderPts9 : Render where
  displayId := 1
  idText := "Quest ID: 001"
  titleLines := [("Hi", 160)]
  descText := "Yo"
  descStartY := 230
  descLines := [("Yo", 230)]
  infoY := 320
  actionX := 289
  actionYOffset := 0
  actionLines := [("Go", 320)]
  maxActionWidth := 261
  deadlineY := 360
  pointsText := "9"
  buttonWidth := 160
  buttonHeight := 70
  buttonX := 580
  buttonY := 380
  icon := none

/-- The render of `generate_quest_badge envSized [] argsPts999`. -/
def renderPts999 : Render where
  displayId := 1
  idText := "Quest ID: 001"
  titleLines := [("Hi", 160)]
  descText := "Yo"
  descStartY := 230
  descLines := [("Yo", 230)]
  infoY := 320
  actionX := 289
  actionYOffset := 0
  actionLines := [("Go", 320)]
  maxActionWidth := 101
  deadlineY := 360
  pointsText := "999"
  buttonWidth := 320
  buttonHeight := 70
  buttonX := 420
  buttonY := 380
  icon := none

/-- An environment measuring every string at 30 px per character. -/
def envChar30 : Env := { baseEnv with textlength := fun _ s => 30 * s.length }

/-- Arguments whose action has a fitting first word followed by a word that
alone exceeds the available action width under `envChar30`. -/
def argsMidLong : Args := { argsSimple with action := "hi reallylongword" }

/-- The render of `generate_quest_badge envChar30 [] argsMidLong`. -/
def renderMidLong : Render where
  displayId := 1
  idText := "Quest ID: 001"
  titleLines := [("Hi", 160)]
  descText := "Yo"
  descStartY := 230
  descLines := [("Yo", 230)]
  infoY := 320
  actionX := 275
  actionYOffset := 0
  actionLines := [("hi", 320), ("reallylongword", 1704 / 5)]
  maxActionWidth := 325
  deadlineY := 1858 / 5
  pointsText := "0"
  buttonWidth := 110
  buttonHeight := 70
  buttonX := 630
  buttonY := 380
  icon := none

/-- An environment whose bounding-box height oracle equals the font size,
so that label and value ascents differ. -/
def envBbox : Env := { baseEnv with bboxHeight := fun f _ => (f.size : ℚ) }

/-- The render of `generate_quest_badge envBbox [] argsSimple`. -/
def renderBbox : Render where
  displayId := 1
  idText := "Quest ID: 001"
  titleLines := [("Hi", 160)]
  descText := "Yo"
  descStartY := 230
  descLines := [("Yo", 230)]
  infoY := 320
  actionX := 65
  actionYOffset := 9 / 4
  actionLines := [("Go", 1289 / 4)]
  maxActionWidth := 565
  deadlineY := 360
  pointsText := "0"
  buttonWidth := 80
  buttonHeight := 70
  buttonX := 660
  buttonY := 380
  icon := none

/-! Shared structural lemmas about the pipeline. -/

theorem finishResult_cases (env : Env) (a : Args) (r : Render) :
    finishResult env a r = .ok (some r) ∨ finishResult env a r = .error .generic := by
  unfold finishResult
  split
  · split
    · right
      rfl
    · split
      · left
        rfl
      · left
        rfl
  · split
    · right
      rfl
    · left
      rfl

theorem gqb_ok_some_elim {env : Env} {st : Store} {a : Args} {r : Render}
    (h : (generate_quest_badge env st a).1 = .ok (some r)) :
    fontsOk env = true ∧
    ∃ r0, gqbLayout env a (deriveDisplayId env a.quest_id) = .ok r0 ∧
      r = { r0 with icon := (iconOutcome env st a r0).2 } := by
  unfold generate_quest_badge gqbBody at h
  cases hok : fontsOk env with
  | false =>
    simp [hok] at h
  | true =>
    simp only [hok] at h
    cases hl : gqbLayout env a (deriveDisplayId env a.quest_id) with
    | error e =>
      simp [hl] at h
    | ok r0 =>
      simp only [hl] at h
      rcases finishResult_cases env a { r0 with icon := (iconOutcome env st a r0).2 } with hf | hf
      · simp only [hf] at h
        refine ⟨rfl, r0, rfl, ?_⟩
        simpa using h.symm
      · simp [hf] at h

theorem linesWithYs_length (ls : List String) :
    ∀ (y step : ℚ), (linesWithYs ls y step).length = ls.length := by
  induction ls with
  | nil => intro y step; rfl
  | cons l ls ih => intro y step; simp [linesWithYs, ih]

theorem linesWithYs_map_fst (ls : List String) :
    ∀ (y step : ℚ), (linesWithYs ls y step).map Prod.fst = ls := by
  induction ls with
  | nil => intro y step; rfl
  | cons l ls ih => intro y step; simp [linesWithYs, ih]

theorem pyJoin_cons (x : String) (w : String) (ws : List String) :
    pyJoin " " (x :: w :: ws) = x ++ " " ++ pyJoin " " (w :: ws) := rfl

theorem wrapGreedy_ne_nil (meas : String → ℚ) (lim : ℚ) (ws : List String) (cur : String) :
    wrapGreedy meas lim cur ws ≠ [] := by
  cases ws with
  | nil => simp [wrapGreedy]
  | cons w ws =>
    simp only [wrapGreedy]
    split
    · apply wrapGreedy_ne_nil
    · simp

theorem wrapGreedy_join (meas : String → ℚ) (lim : ℚ) :
    ∀ (ws : List String) (cur : String),
      pyJoin " " (wrapGreedy meas lim cur ws) = pyJoin " " (cur :: ws) := by
  intro ws
  induction ws with
  | nil => intro cur; rfl
  | cons w ws ih =>
    intro cur
    simp only [wrapGreedy]
    split
    · rw [ih, pyJoin_cons]
      cases ws with
      | nil => simp [pyJoin, String.append_assoc]
      | cons w2 ws2 => simp [pyJoin_cons, String.append_assoc]
    · cases hgw : wrapGreedy meas lim w ws with
      | nil => exact absurd hgw (wrapGreedy_ne_nil meas lim ws w)
      | cons g gs =>
        rw [pyJoin_cons, ← hgw, ih, pyJoin_cons]

theorem pyJoin_take_append (l : List String) :
    ∀ (n : ℕ), ∃ t, pyJoin " " (l.take n) ++ t = pyJoin " " l := by
  induction l with
  | nil => intro n; exact ⟨"", by simp [pyJoin, String.append_empty]⟩
  | cons x l ih =>
    intro n
    cases n with
    | zero => exact ⟨pyJoin " " (x :: l), String.empty_append _⟩
    | succ m =>
      cases l with
      | nil =>
        exact ⟨"", by simp [pyJoin, String.append_empty]⟩
      | cons y l2 =>
        cases m with
        | zero =>
          exact ⟨" " ++ pyJoin " " (y :: l2), by simp [pyJoin, String.append_assoc]⟩
        | succ k =>
          obtain ⟨t, ht⟩ := ih (k + 1)
          refine ⟨t, ?_⟩
          rw [List.take_succ_cons]
          cases htk : (y :: l2).take (k + 1) with
          | nil => simp at htk
          | cons z zs =>
            rw [pyJoin_cons, ← htk]
            calc x ++ " " ++ pyJoin " " ((y :: l2).take (k + 1)) ++ t
                = x ++ " " ++ (pyJoin " " ((y :: l2).take (k + 1)) ++ t) :=
                  String.append_assoc _ _ _
              _ = x ++ " " ++ pyJoin " " (y :: l2) := by rw [ht]
              _ = pyJoin " " (x :: y :: l2) := (pyJoin_cons _ _ _).symm

theorem pySplitAux_words_clean (cs : List Char) :
    ∀ (acc : List Char), (∀ c ∈ acc, isPyWsB c = false) →
      ∀ w ∈ pySplitAux cs acc, w.data ≠ [] ∧ ∀ c ∈ w.data, isPyWsB c = false := by
  induction cs with
  | nil =>
    intro acc hacc w hw
    simp only [pySplitAux] at hw
    split at hw
    · simp at hw
    · rename_i hne
      simp at hw
      subst hw
      refine ⟨by simpa using hne, ?_⟩
      intro c hc
      exact hacc c (by simpa using hc)
  | cons c cs ih =>
    intro acc hacc w hw
    simp only [pySplitAux] at hw
    split at hw
    · split at hw
      · exact ih [] (by simp) w hw
      · rename_i hne
        rcases List.mem_cons.mp hw with hw | hw
        · subst hw
          refine ⟨by simpa using hne, ?_⟩
          intro d hd
          exact hacc d (by simpa using hd)
        · exact ih [] (by simp) w hw
    · rename_i hc
      refine ih (c :: acc) ?_ w hw
      intro d hd
      rcases List.mem_cons.mp hd with rfl | hd
      · simpa using hc
      · exact hacc d hd

theorem pySplitWs_words_clean (s : String) :
    ∀ w ∈ pySplitWs s, w.data ≠ [] ∧ ∀ c ∈ w.data, isPyWsB c = false :=
  pySplitAux_words_clean s.data [] (by simp)

theorem wrapGreedy_space_fits (meas : String → ℚ) (lim : ℚ) :
    ∀ (ws : List String) (cur : String),
      (∀ w ∈ ws, ∀ c ∈ String.data w, isPyWsB c = false) →
      (' ' ∈ cur.data → meas cur ≤ lim) →
      ∀ l ∈ wrapGreedy meas lim cur ws, ' ' ∈ l.data → meas l ≤ lim := by
  intro ws
  induction ws with
  | nil =>
    intro cur _ hcur l hl
    simp [wrapGreedy] at hl
    subst hl
    exact hcur
  | cons w ws ih =>
    intro cur hclean hcur l hl
    simp only [wrapGreedy] at hl
    split at hl
    · rename_i htest
      exact ih (cur ++ " " ++ w) (fun v hv => hclean v (List.mem_cons_of_mem w hv))
        (fun _ => htest) l hl
    · rcases List.mem_cons.mp hl with rfl | hl
      · exact hcur
      · refine ih w (fun v hv => hclean v (List.mem_cons_of_mem w hv)) ?_ l hl
        intro hsp
        have hcontra := hclean w (List.mem_cons_self w ws) ' ' hsp
        simp [isPyWsB] at hcontra

theorem strLen_mk (l : List Char) : (String.mk l).length = l.length := rfl

theorem sumLen_nil : sumLen [] = 0 := rfl

theorem sumLen_cons (c : String) (cs : List String) :
    sumLen (c :: cs) = c.length + sumLen cs := by
  simp [sumLen]

theorem sumLen_append (a b : List String) : sumLen (a ++ b) = sumLen a + sumLen b := by
  simp [sumLen]

theorem sumLen_dropLast (cs : List String) : sumLen cs.dropLast ≤ sumLen cs := by
  induction cs with
  | nil => simp
  | cons c cs ih =>
    cases cs with
    | nil => simp [sumLen]
    | cons d ds =>
      rw [List.dropLast_cons₂, sumLen_cons, sumLen_cons]
      omega

theorem sumLen_dropLastWs (cs : List String) : sumLen (dropLastWs cs) ≤ sumLen cs := by
  unfold dropLastWs
  split
  · split
    · exact sumLen_dropLast cs
    · exact le_refl _
  · exact le_refl _

theorem strJoin_length (cs : List String) : (strJoin cs).length = sumLen cs := by
  induction cs with
  | nil => rfl
  | cons c cs ih =>
    rw [sumLen_cons, ← ih]
    simp [strJoin, strLen_mk]

theorem greedyTake_append (width : ℕ) :
    ∀ (cs : List String) (curLen : ℕ),
      (greedyTake width curLen cs).1 ++ (greedyTake width curLen cs).2 = cs := by
  intro cs
  induction cs with
  | nil => intro c; rfl
  | cons c cs ih =>
    intro curLen
    simp only [greedyTake]
    split
    · simp [ih]
    · rfl

theorem greedyTake_sumLen (width : ℕ) :
    ∀ (cs : List String) (curLen : ℕ), curLen ≤ width →
      curLen + sumLen (greedyTake width curLen cs).1 ≤ width := by
  intro cs
  induction cs with
  | nil =>
    intro c hc
    simpa [greedyTake, sumLen] using hc
  | cons c cs ih =>
    intro curLen hc
    simp only [greedyTake]
    split
    · rename_i hfit
      have hrec := ih (curLen + c.length) hfit
      rw [sumLen_cons]
      omega
    · simpa [sumLen] using hc

theorem handleLong_sumLen (width : ℕ) (hw : 1 ≤ width) (p : List String × List String)
    (hsum : sumLen p.1 ≤ width) : sumLen (handleLong width p).1 ≤ width := by
  unfold handleLong
  cases hp2 : p.2 with
  | nil => simpa using hsum
  | cons r0 rs =>
    simp only
    split
    · rw [if_neg (by omega), sumLen_append, sumLen_cons, sumLen_nil, strLen_mk]
      have htake : (r0.data.take (width - sumLen p.1)).length ≤ width - sumLen p.1 := by
        simp [List.length_take]
      omega
    · simpa using hsum

theorem wrapStep_line_le (width : ℕ) (hw : 1 ≤ width) (hl : Bool) (chunks : List String) :
    ∀ l, (wrapStep width hl chunks).1 = some l → l.length ≤ width := by
  intro l h
  cases chunks with
  | nil => simp [wrapStep] at h
  | cons c0 rest0 =>
    simp only [wrapStep] at h
    by_cases hemp :
      (dropLastWs (handleLong width
        (greedyTake width 0 (if hl && isWsChunk c0 then rest0 else c0 :: rest0))).1).isEmpty = true
    · rw [if_pos hemp] at h
      cases h
    · rw [if_neg hemp] at h
      cases h
      rw [strJoin_length]
      refine le_trans (sumLen_dropLastWs _) (handleLong_sumLen width hw _ ?_)
      have := greedyTake_sumLen width
        (if hl && isWsChunk c0 then rest0 else c0 :: rest0) 0 (by omega)
      simpa using this

theorem wrapAuxF_lines_le (width : ℕ) (hw : 1 ≤ width) :
    ∀ (fuel : ℕ) (hl : Bool) (cs : List String), ∀ l ∈ wrapAuxF width fuel hl cs,
      l.length ≤ width := by
  intro fuel
  induction fuel with
  | zero =>
    intro hl cs l h
    simp [wrapAuxF] at h
  | succ f ih =>
    intro hl cs l h
    cases cs with
    | nil => simp [wrapAuxF] at h
    | cons c cs2 =>
      simp only [wrapAuxF] at h
      cases hs : (wrapStep width hl (c :: cs2)).1 with
      | some l2 =>
        rw [hs] at h
        rcases List.mem_cons.mp h with rfl | h2
        · exact wrapStep_line_le width hw hl (c :: cs2) l hs
        · exact ih _ _ l h2
      | none =>
        rw [hs] at h
        exact ih _ _ l h

theorem pyTextwrap_lines_le {width : ℕ} (hw : 1 ≤ width) (s : String) :
    ∀ l ∈ pyTextwrap width s, l.length ≤ width := by
  intro l h
  exact wrapAuxF_lines_le width hw _ _ _ l h

theorem gqbLayout_title {env : Env} {a : Args} {d : ℤ} {r0 : Render}
    (h : gqbLayout env a d = .ok r0) :
    ∃ p, titleBlock env a.title = .ok p ∧ r0.titleLines = p.1 ∧ r0.descStartY = p.2 := by
  unfold gqbLayout at h
  cases ht : titleBlock env a.title with
  | error e =>
    rw [ht] at h
    cases h
  | ok p =>
    rw [ht] at h
    cases h
    exact ⟨p, rfl, rfl, rfl⟩

theorem gqbLayout_render {env : Env} {a : Args} {d : ℤ} {r0 : Render}
    (h : gqbLayout env a d = .ok r0) :
    ∃ p, titleBlock env a.title = .ok p ∧ r0 = layoutRest env a d p.1 p.2 := by
  unfold gqbLayout at h
  cases ht : titleBlock env a.title with
  | error e =>
    rw [ht] at h
    cases h
  | ok p =>
    rw [ht] at h
    cases h
    exact ⟨p, rfl, rfl⟩

/-! Claim theorems. -/

theorem pad0_length (s : List Char) (k : ℕ) : (pad0 s k).length = max k s.length := by
  simp [pad0]
  omega

theorem natDigitsAux_length_le :
    ∀ (fuel n k : ℕ), n < 10 ^ k → (natDigitsAux fuel n).length ≤ k := by
  intro fuel
  induction fuel with
  | zero =>
    intro n k _
    simp [natDigitsAux]
  | succ f ih =>
    intro n k hk
    cases n with
    | zero => simp [natDigitsAux]
    | succ m =>
      have hk1 : k ≠ 0 := by
        rintro rfl
        simp at hk
      obtain ⟨k', rfl⟩ := Nat.exists_eq_succ_of_ne_zero hk1
      have hdiv : (m + 1) / 10 < 10 ^ k' := by
        rw [Nat.div_lt_iff_lt_mul (by norm_num)]
        calc m + 1 < 10 ^ (k' + 1) := hk
          _ = 10 ^ k' * 10 := by ring
      have hrec := ih ((m + 1) / 10) k' hdiv
      simp only [natDigitsAux, List.length_append, List.length_cons, List.length_nil]
      omega

theorem pyFormat03d_length_ge (n : ℤ) : 3 ≤ (pyFormat03d n).length := by
  unfold pyFormat03d
  split
  · rw [strLen_mk, List.length_cons, pad0_length]
    omega
  · rw [strLen_mk, pad0_length]
    omega

theorem pyFormat03d_length_eq_three {n : ℤ} (h0 : 0 ≤ n) (h : n < 1000) :
    (pyFormat03d n).length = 3 := by
  unfold pyFormat03d
  rw [if_neg (by omega)]
  have hlt : n.natAbs < 10 ^ 3 := by
    have : n.natAbs < 1000 := by omega
    simpa using this
  have hlen := natDigitsAux_length_le n.natAbs n.natAbs 3 hlt
  rw [strLen_mk, pad0_length]
  omega

theorem pyFormat03d_emod_length (h : ℤ) : (pyFormat03d (h % 1000)).length = 3 :=
  pyFormat03d_length_eq_three (Int.emod_nonneg h (by norm_num))
    (Int.emod_lt_of_pos h (by norm_num))

theorem gqbLayout_id_fields {env : Env} {a : Args} {d : ℤ} {r0 : Render}
    (h : gqbLayout env a d = .ok r0) :
    r0.displayId = d ∧ r0.idText = "Quest ID: " ++ pyFormat03d d := by
  unfold gqbLayout at h
  cases ht : titleBlock env a.title with
  | error e =>
    rw [ht] at h
    cases h
  | ok p =>
    rw [ht] at h
    cases h
    exact ⟨rfl, rfl⟩

/-- C1: for every input and environment, `generate_quest_badge` never lets
an exception escape (the result is always an `.ok` value, never a
propagated `.error`); the failure of any required font yields a `None`
result, and so does any internal error of the final save, `None` being the
sole failure signal. -/
theorem c1_gqb_never_raises (env : Env) (st : Store) (a : Args) :
    (∃ r, (generate_quest_badge env st a).1 = .ok r) ∧
    (∀ f ∈ fontSpecs, env.fontLoads f = false →
      (generate_quest_badge env st a).1 = .ok none) ∧
    (env.saveRaises = true → (generate_quest_badge env st a).1 = .ok none) := by
  refine ⟨?_, ?_, ?_⟩
  · unfold generate_quest_badge
    rcases h : gqbBody env st a (deriveDisplayId env a.quest_id) with ⟨x, st'⟩
    cases x with
    | ok r => exact ⟨r, by simp [h]⟩
    | error e => exact ⟨none, by simp [h]⟩
  · intro f hf hload
    cases hok : fontsOk env with
    | true =>
      exfalso
      have := List.all_eq_true.mp (by simpa [fontsOk] using hok) f hf
      simp [hload] at this
    | false =>
      unfold generate_quest_badge gqbBody
      simp [hok]
  · intro hs
    unfold generate_quest_badge gqbBody
    cases hok : fontsOk env with
    | false => simp [hok]
    | true =>
      simp only [hok]
      cases hl : gqbLayout env a (deriveDisplayId env a.quest_id) with
      | error e => simp [hl]
      | ok r0 => simp [hl, finishResult, hs]

/-- Witness for C1: with every font failing to load, a concrete call
returns `None` rather than raising. -/
theorem c1_gqb_never_raises_witness :
    (generate_quest_badge envNoFonts [] argsSimple).1 = .ok none :=
  (c1_gqb_never_raises envNoFonts [] argsSimple).2.1 titleFont (by decide) rfl

/-- C2 counterexample: the numeric quest id string `"1234"` is used
directly, so the rendered tag shows four digits, not exactly three; and the
numeric string `"-5"` is hashed (the separator check precedes numeric
parsing) instead of being used directly as `-5`. -/
theorem c2_display_id_counterexample :
    pyParseInt "1234" = some 1234 ∧
    (generate_quest_badge baseEnv [] args1234).1 = .ok (some render1234) ∧
    render1234.idText = "Quest ID: 1234" ∧
    (pyFormat03d render1234.displayId).length = 4 ∧
    pyParseInt "-5" = some (-5) ∧
    deriveDisplayId baseEnv (QuestId.str "-5") = 0 :=
  ⟨by decide, by with_unfolding_all rfl, by decide, by decide, by decide, by decide⟩

/-- C2 amended: `display_id` is derived with the separator check taking
priority over numeric parsing — a string containing `-` is hashed modulo
1000, a numeric string without `-` is used directly, any other string is
hashed modulo 1000 — and the rendered tag is zero-padded to a minimum of 3
digits (exactly 3 whenever the id is hash-derived, but longer ids render
with all their digits). -/
theorem c2_display_id_amended (env : Env) (st : Store) (a : Args) (r : Render)
    (h : (generate_quest_badge env st a).1 = .ok (some r)) :
    r.displayId = deriveDisplayId env a.quest_id ∧
    r.idText = "Quest ID: " ++ pyFormat03d r.displayId ∧
    (∀ s, a.quest_id = QuestId.str s → hasHyphen s = true →
      r.displayId = env.pyHash s % 1000) ∧
    (∀ s n, a.quest_id = QuestId.str s → hasHyphen s = false → pyParseInt s = some n →
      r.displayId = n) ∧
    (∀ s, a.quest_id = QuestId.str s → hasHyphen s = false → pyParseInt s = none →
      r.displayId = env.pyHash s % 1000) ∧
    (∀ h2 : ℤ, (pyFormat03d (h2 % 1000)).length = 3) ∧
    3 ≤ (pyFormat03d r.displayId).length := by
  obtain ⟨hok, r0, hl, hr⟩ := gqb_ok_some_elim h
  obtain ⟨hid, htext⟩ := gqbLayout_id_fields hl
  have hrid : r.displayId = deriveDisplayId env a.quest_id := by rw [hr]; exact hid
  have hrtext : r.idText = r0.idText := by rw [hr]
  refine ⟨hrid, ?_, ?_, ?_, ?_, ?_, ?_⟩
  · rw [hrtext, htext, hrid]
  · intro s hs hh
    rw [hrid, hs]
    simp [deriveDisplayId, hh]
  · intro s n hs hh hp
    rw [hrid, hs]
    simp [deriveDisplayId, hh, hp]
  · intro s hs hh hp
    rw [hrid, hs]
    simp [deriveDisplayId, hh, hp]
  · exact pyFormat03d_emod_length
  · exact pyFormat03d_length_ge _

/-- Witness for the amended C2 at a concrete input: the tag of quest id
`"1234"` is built from `pyFormat03d` and has at least three digits. -/
theorem c2_display_id_amended_witness :
    render1234.idText = "Quest ID: " ++ pyFormat03d render1234.displayId ∧
    3 ≤ (pyFormat03d render1234.displayId).length :=
  ⟨(c2_display_id_amended baseEnv [] args1234 render1234 (by with_unfolding_all rfl)).2.1,
   (c2_display_id_amended baseEnv [] args1234 render1234
      (by with_unfolding_all rfl)).2.2.2.2.2.2⟩

/-- C8: the `display_id` derivation is deterministic — two calls sharing
the same environment (in Python terms: the same process, hence the same
hash seed) and the same `quest_id`, with every other argument and the image
store arbitrary, render the same id and the same zero-padded tag. -/
theorem c8_display_id_deterministic (env : Env) (st st' : Store) (a a' : Args)
    (hq : a.quest_id = a'.quest_id) (r r' : Render)
    (h : (generate_quest_badge env st a).1 = .ok (some r))
    (h' : (generate_quest_badge env st' a').1 = .ok (some r')) :
    r.displayId = r'.displayId ∧ r.idText = r'.idText := by
  obtain ⟨_, r0, hl, hr⟩ := gqb_ok_some_elim h
  obtain ⟨_, r0', hl', hr'⟩ := gqb_ok_some_elim h'
  obtain ⟨hid, htext⟩ := gqbLayout_id_fields hl
  obtain ⟨hid', htext'⟩ := gqbLayout_id_fields hl'
  constructor
  · rw [hr, hr']
    show r0.displayId = r0'.displayId
    rw [hid, hid', hq]
  · rw [hr, hr']
    show r0.idText = r0'.idText
    rw [htext, htext', hq]

/-- Witness for C8: two concrete calls sharing quest id `"abc"` but
differing in title, description, action and points render the same tag. -/
theorem c8_display_id_deterministic_witness :
    renderAbc7.displayId = renderAbc999.displayId ∧
    renderAbc7.idText = renderAbc999.idText :=
  c8_display_id_deterministic baseEnv [] [] argsAbc7 argsAbc999 rfl renderAbc7 renderAbc999
    (by with_unfolding_all rfl) (by with_unfolding_all rfl)

theorem titleBlock_cases (env : Env) (title : String) (p : List (String × ℚ) × ℚ)
    (h : titleBlock env title = .ok p) :
    (env.textlength titleFont (pyJoin " " ((pySplitWs title).take 3)) ≤ 500 ∧
      p = ([(pyJoin " " ((pySplitWs title).take 3), 160)], 230)) ∨
    (500 < env.textlength titleFont (pyJoin " " ((pySplitWs title).take 3)) ∧
      ∃ w rest, (pySplitWs title).take 3 = w :: rest ∧
        p = (linesWithYs ((wrapGreedy (env.textlength titleFont) 500 w rest).take 2) 160 45,
          160 + 45 * (((wrapGreedy (env.textlength titleFont) 500 w rest).take 2).length : ℚ)
            + 40)) := by
  simp only [titleBlock] at h
  split at h
  · rename_i hgt
    cases hws : (pySplitWs title).take 3 with
    | nil =>
      rw [hws] at h
      cases h
    | cons w rest =>
      rw [hws] at h hgt
      cases h
      exact .inr ⟨hgt, w, rest, rfl, rfl⟩
  · rename_i hle
    cases h
    exact .inl ⟨not_lt.mp hle, rfl⟩

/-- C3 counterexample: under a size-proportional font metric, the title
`"Abracadabraa Zz"` triggers the wrap branch and its first drawn line, the
single word `"Abracadabraa"`, measures 600 > 500, so the wrapped lines do
not all fit the `width - 300` limit. -/
theorem c3_title_wrap_counterexample :
    (generate_quest_badge envSized [] argsWrapTitle).1 = .ok (some renderWrapTitle) ∧
    500 < envSized.textlength titleFont (pyJoin " " ((pySplitWs argsWrapTitle.title).take 3)) ∧
    renderWrapTitle.titleLines.map Prod.fst = ["Abracadabraa", "Zz"] ∧
    500 < envSized.textlength titleFont "Abracadabraa" :=
  ⟨by with_unfolding_all rfl, by with_unfolding_all decide,
   by with_unfolding_all decide, by with_unfolding_all decide⟩

/-- C3 amended: the badge lays out only the first three whitespace
separated title words (drawn text is an initial segment of the three-word
join, dropped words are not carried over), at most two lines are drawn at
pitch `title_font.size - 5 = 45`; when the three-word join fits the
`width - 300 = 500` budget a single line is drawn, and in the wrap branch
every drawn line that holds more than one word (that is, contains a space)
fits the budget — but a line made of a single overlong word may exceed it. -/
theorem c3_title_layout_amended (env : Env) (st : Store) (a : Args) (r : Render)
    (h : (generate_quest_badge env st a).1 = .ok (some r)) :
    r.titleLines.length ≤ 2 ∧
    r.titleLines = linesWithYs (r.titleLines.map Prod.fst) 160 45 ∧
    (∃ t, pyJoin " " (r.titleLines.map Prod.fst) ++ t
        = pyJoin " " ((pySplitWs a.title).take 3)) ∧
    (∀ l ∈ r.titleLines.map Prod.fst, ' ' ∈ l.data → env.textlength titleFont l ≤ 500) ∧
    (env.textlength titleFont (pyJoin " " ((pySplitWs a.title).take 3)) ≤ 500 →
      r.titleLines = [(pyJoin " " ((pySplitWs a.title).take 3), 160)]) := by
  obtain ⟨hok, r0, hl, hr⟩ := gqb_ok_some_elim h
  obtain ⟨p, ht, htl, _⟩ := gqbLayout_title hl
  have hrt : r.titleLines = p.1 := by rw [hr]; exact htl
  rcases titleBlock_cases env a.title p ht with ⟨hle, hp⟩ | ⟨hgt, w, rest, hws, hp⟩
  · rw [hrt, hp]
    refine ⟨by simp, by simp [linesWithYs], ⟨"", ?_⟩, ?_, fun _ => rfl⟩
    · simp [pyJoin, String.append_empty]
    · intro l hlm hsp
      simp [pyJoin] at hlm
      subst hlm
      exact hle
  · rw [hrt, hp]
    refine ⟨?_, ?_, ?_, ?_, ?_⟩
    · rw [linesWithYs_length, List.length_take]
      exact Nat.min_le_left _ _
    · rw [linesWithYs_map_fst]
    · rw [linesWithYs_map_fst]
      obtain ⟨t2, ht2⟩ :=
        pyJoin_take_append (wrapGreedy (env.textlength titleFont) 500 w rest) 2
      refine ⟨t2, ?_⟩
      rw [ht2, wrapGreedy_join, ← hws]
    · rw [linesWithYs_map_fst]
      intro l hlm hsp
      have hclean : ∀ v ∈ rest, ∀ c ∈ String.data v, isPyWsB c = false := by
        intro v hv
        have hvm : v ∈ pySplitWs a.title := by
          refine List.mem_of_mem_take (n := 3) ?_
          rw [hws]
          exact List.mem_cons_of_mem w hv
        exact (pySplitWs_words_clean a.title v hvm).2
      have hcur : ' ' ∈ w.data → env.textlength titleFont w ≤ 500 := by
        intro hsp'
        have hwm : w ∈ pySplitWs a.title := by
          refine List.mem_of_mem_take (n := 3) ?_
          rw [hws]
          exact List.mem_cons_self w rest
        have hcontra := (pySplitWs_words_clean a.title w hwm).2 ' ' hsp'
        simp [isPyWsB] at hcontra
      exact wrapGreedy_space_fits _ _ rest w hclean hcur l (List.mem_of_mem_take hlm) hsp
    · intro hle
      exact absurd hgt (not_lt.mpr hle)

/-- Witness for the amended C3: the wrapped concrete title run draws two
lines at y 160 and 205 (pitch 45). -/
theorem c3_title_layout_amended_witness :
    renderWrapTitle.titleLines.length ≤ 2 ∧
    renderWrapTitle.titleLines = linesWithYs (renderWrapTitle.titleLines.map Prod.fst) 160 45 :=
  ⟨(c3_title_layout_amended envSized [] argsWrapTitle renderWrapTitle
      (by with_unfolding_all rfl)).1,
   (c3_title_layout_amended envSized [] argsWrapTitle renderWrapTitle
      (by with_unfolding_all rfl)).2.1⟩

/-- C4: a description of more than 10 whitespace-separated words is
truncated to exactly its first 10 words joined by single spaces followed by
`"..."`, a description of at most 10 words is passed to rendering verbatim;
the resulting text is wrapped by the fixed 28-character rule of
`textwrap.wrap` (every rendered line holds at most 28 characters, no pixel
measurement involved), and each rendered line advances the vertical cursor
by 35 pixels. -/
theorem c4_description_layout (env : Env) (st : Store) (a : Args) (r : Render)
    (h : (generate_quest_badge env st a).1 = .ok (some r)) :
    (10 < (pySplitWs a.description).length →
      r.descText = pyJoin " " ((pySplitWs a.description).take 10) ++ "...") ∧
    ((pySplitWs a.description).length ≤ 10 → r.descText = a.description) ∧
    r.descLines = linesWithYs (pyTextwrap 28 r.descText) r.descStartY 35 ∧
    (∀ l ∈ r.descLines.map Prod.fst, l.length ≤ 28) := by
  obtain ⟨hok, r0, hl, hr⟩ := gqb_ok_some_elim h
  obtain ⟨p, ht, hr0⟩ := gqbLayout_render hl
  have hdt : r.descText = r0.descText := by rw [hr]
  have hdl : r.descLines = r0.descLines := by rw [hr]
  have hds : r.descStartY = r0.descStartY := by rw [hr]
  subst hr0
  refine ⟨?_, ?_, ?_, ?_⟩
  · intro h10
    rw [hdt]
    show (if 10 < (pySplitWs a.description).length then
        pyJoin " " ((pySplitWs a.description).take 10) ++ "..." else a.description) = _
    rw [if_pos h10]
  · intro h10
    rw [hdt]
    show (if 10 < (pySplitWs a.description).length then
        pyJoin " " ((pySplitWs a.description).take 10) ++ "..." else a.description) = _
    rw [if_neg (by omega)]
  · rw [hdl, hds, hdt]
    rfl
  · intro l hlm
    rw [hdl] at hlm
    have hlm2 : l ∈ pyTextwrap 28 ((layoutRest env a (deriveDisplayId env a.quest_id)
        p.1 p.2).descText) := by
      have : (layoutRest env a (deriveDisplayId env a.quest_id) p.1 p.2).descLines.map Prod.fst
          = pyTextwrap 28 ((layoutRest env a (deriveDisplayId env a.quest_id) p.1 p.2).descText) :=
        linesWithYs_map_fst _ _ _
      rw [← this]
      exact hlm
    exact pyTextwrap_lines_le (by norm_num) _ l hlm2

theorem natDigitsAux_digits : ∀ (fuel n : ℕ), ∀ c ∈ natDigitsAux fuel n, c.isDigit = true := by
  intro fuel
  induction fuel with
  | zero =>
    intro n c hc
    simp [natDigitsAux] at hc
  | succ f ih =>
    intro n c hc
    cases n with
    | zero => simp [natDigitsAux] at hc
    | succ m =>
      simp only [natDigitsAux] at hc
      rcases List.mem_append.mp hc with hc | hc
      · exact ih _ c hc
      · simp at hc
        subst hc
        exact (by decide : ∀ d, d < 10 → (digitChar d).isDigit = true) _
          (Nat.mod_lt _ (by norm_num))

theorem pyStrInt_digits {n : ℤ} (hn : 0 ≤ n) : ∀ c ∈ (pyStrInt n).data, c.isDigit = true := by
  intro c hc
  unfold pyStrInt at hc
  rw [if_neg (by omega)] at hc
  unfold natDigitsStr at hc
  split at hc
  · rw [show ("0" : String).data = ['0'] from rfl] at hc
    simp at hc
    subst hc
    decide
  · exact natDigitsAux_digits _ _ c hc

/-- C5: the points pill is as wide as the measured text of the decimal
rendering of `points` in the points font plus 80 px of padding, 70 px tall;
and under any font metric that is strictly monotone in the digit count of
digit strings (as real proportional digit glyphs are), a points value that
renders with fewer digits yields a strictly narrower pill. -/
theorem c5_points_pill (env : Env) (st st' : Store) (a a' : Args) (r r' : Render)
    (h : (generate_quest_badge env st a).1 = .ok (some r))
    (h' : (generate_quest_badge env st' a').1 = .ok (some r'))
    (hmono : ∀ s t : String, (∀ c ∈ s.data, c.isDigit = true) →
      (∀ c ∈ t.data, c.isDigit = true) → s.length < t.length →
      env.textlength pointsFont s < env.textlength pointsFont t)
    (hp : 0 ≤ a.points) (hp' : 0 ≤ a'.points)
    (hdig : (pyStrInt a.points).length < (pyStrInt a'.points).length) :
    r.buttonWidth = env.textlength pointsFont (pyStrInt a.points) + 80 ∧
    r.buttonHeight = 70 ∧
    r.buttonWidth < r'.buttonWidth := by
  obtain ⟨_, r0, hl, hr⟩ := gqb_ok_some_elim h
  obtain ⟨p, _, hr0⟩ := gqbLayout_render hl
  obtain ⟨_, r0', hl', hr'⟩ := gqb_ok_some_elim h'
  obtain ⟨p', _, hr0'⟩ := gqbLayout_render hl'
  have hbw : r.buttonWidth = env.textlength pointsFont (pyStrInt a.points) + 80 := by
    rw [hr]
    show r0.buttonWidth = _
    rw [hr0]
    rfl
  have hbw' : r'.buttonWidth = env.textlength pointsFont (pyStrInt a'.points) + 80 := by
    rw [hr']
    show r0'.buttonWidth = _
    rw [hr0']
    rfl
  have hbh : r.buttonHeight = 70 := by
    rw [hr]
    show r0.buttonHeight = 70
    rw [hr0]
    rfl
  refine ⟨hbw, hbh, ?_⟩
  rw [hbw, hbw']
  have hm := hmono (pyStrInt a.points) (pyStrInt a'.points)
    (pyStrInt_digits hp) (pyStrInt_digits hp') hdig
  linarith

/-- Witness for C5: under the size-proportional metric, points 9 gives a
160 px pill and points 999 a 320 px pill, strictly wider. -/
theorem c5_points_pill_witness :
    renderPts9.buttonWidth = envSized.textlength pointsFont (pyStrInt argsPts9.points) + 80 ∧
    renderPts9.buttonHeight = 70 ∧
    renderPts9.buttonWidth < renderPts999.buttonWidth :=
  c5_points_pill envSized [] [] argsPts9 argsPts999 renderPts9 renderPts999
    (by with_unfolding_all rfl) (by with_unfolding_all rfl)
    (fun s t _ _ hlt => by
      show ((pointsFont.size : ℕ) : ℚ) * s.length < ((pointsFont.size : ℕ) : ℚ) * t.length
      have hc : (s.length : ℚ) < t.length := by exact_mod_cast hlt
      have hpos : (0 : ℚ) < ((pointsFont.size : ℕ) : ℚ) := by norm_num [pointsFont]
      exact mul_lt_mul_of_pos_left hc hpos)
    (by decide) (by decide) (by decide)

/-- Witness for C4: the twelve-word description is truncated to its first
ten words plus an ellipsis and wrapped at 28 characters into lines 35 px
apart. -/
theorem c4_description_layout_witness :
    renderLongDesc.descText
      = pyJoin " " ((pySplitWs argsLongDesc.description).take 10) ++ "..." ∧
    renderLongDesc.descLines
      = linesWithYs (pyTextwrap 28 renderLongDesc.descText) renderLongDesc.descStartY 35 :=
  ⟨(c4_description_layout baseEnv [] argsLongDesc renderLongDesc
      (by with_unfolding_all rfl)).1 (by decide),
   (c4_description_layout baseEnv [] argsLongDesc renderLongDesc
      (by with_unfolding_all rfl)).2.2.1⟩

theorem str_append_space_ne (cur w : String) : cur ++ " " ++ w ≠ "" := by
  intro h
  have hlen := congrArg String.length h
  rw [String.length_append, String.length_append,
    show (" " : String).length = 1 from rfl,
    show ("" : String).length = 0 from rfl] at hlen
  omega

theorem wrapAction_first_long (meas : String → ℚ) (maxw : ℚ) (w : String) (ws : List String)
    (hgt : ¬ meas w ≤ maxw) :
    wrapAction meas maxw (w :: ws) = [String.mk (w.data.take 10) ++ "..."] := by
  unfold wrapAction
  simp only [wrapActionAux]
  simp [hgt]

theorem wrapActionAux_ne_nil (meas : String → ℚ) (maxw : ℚ) :
    ∀ (ws : List String) (cur : String), cur ≠ "" → wrapActionAux meas maxw ws cur ≠ [] := by
  intro ws
  induction ws with
  | nil =>
    intro cur hc
    simp [wrapActionAux, hc]
  | cons w ws ih =>
    intro cur hc
    simp only [wrapActionAux]
    rw [if_neg hc]
    split
    · exact ih _ (str_append_space_ne cur w)
    · simp

theorem wrapActionAux_join (meas : String → ℚ) (maxw : ℚ) :
    ∀ (ws : List String) (cur : String), cur ≠ "" → (∀ w ∈ ws, w ≠ "") →
      pyJoin " " (wrapActionAux meas maxw ws cur) = pyJoin " " (cur :: ws) := by
  intro ws
  induction ws with
  | nil =>
    intro cur hc _
    simp [wrapActionAux, hc, pyJoin]
  | cons w ws ih =>
    intro cur hc hne
    simp only [wrapActionAux]
    rw [if_neg hc]
    split
    · rw [ih (cur ++ " " ++ w) (str_append_space_ne cur w)
        (fun v hv => hne v (List.mem_cons_of_mem w hv)), pyJoin_cons]
      cases ws with
      | nil => simp [pyJoin, String.append_assoc]
      | cons w2 ws2 => simp [pyJoin_cons, String.append_assoc]
    · cases hgw : wrapActionAux meas maxw ws w with
      | nil =>
        exact absurd hgw (wrapActionAux_ne_nil meas maxw ws w (hne w (List.mem_cons_self w ws)))
      | cons g gs =>
        rw [pyJoin_cons, ← hgw,
          ih w (hne w (List.mem_cons_self w ws)) (fun v hv => hne v (List.mem_cons_of_mem w hv)),
          pyJoin_cons]

theorem layoutRest_action (env : Env) (a : Args) (d : ℤ) (tl : List (String × ℚ)) (dy : ℚ) :
    ((layoutRest env a d tl dy).maxActionWidth < env.textlength bodyFont a.action →
      (layoutRest env a d tl dy).actionLines =
        linesWithYs
          (wrapAction (env.textlength bodyFont) (layoutRest env a d tl dy).maxActionWidth
            (pySplitWs a.action))
          ((layoutRest env a d tl dy).infoY + (layoutRest env a d tl dy).actionYOffset)
          (26 * (4 / 5)) ∧
      (layoutRest env a d tl dy).deadlineY =
        (layoutRest env a d tl dy).infoY + (layoutRest env a d tl dy).actionYOffset
          + 26 * (4 / 5) * ((wrapAction (env.textlength bodyFont)
              (layoutRest env a d tl dy).maxActionWidth (pySplitWs a.action)).length : ℚ)
          + 10) ∧
    (¬ (layoutRest env a d tl dy).maxActionWidth < env.textlength bodyFont a.action →
      (layoutRest env a d tl dy).actionLines =
        [(a.action, (layoutRest env a d tl dy).infoY + (layoutRest env a d tl dy).actionYOffset)] ∧
      (layoutRest env a d tl dy).deadlineY = (layoutRest env a d tl dy).infoY + 40) := by
  constructor
  · intro hw
    simp only [layoutRest] at hw ⊢
    rw [if_pos hw, if_pos hw]
    exact ⟨rfl, rfl⟩
  · intro hw
    simp only [layoutRest] at hw ⊢
    rw [if_neg hw, if_neg hw]
    exact ⟨rfl, rfl⟩

theorem wrapAction_first_fits (meas : String → ℚ) (maxw : ℚ) (w : String) (ws : List String)
    (hfit : meas w ≤ maxw) :
    wrapAction meas maxw (w :: ws) = wrapActionAux meas maxw ws w := by
  unfold wrapAction
  simp only [wrapActionAux]
  simp [hfit]

theorem ne_empty_of_data_ne_nil {s : String} (h : s.data ≠ []) : s ≠ "" :=
  fun he => h (by rw [he])

/-- C6 counterexample: with points 0 under a 30 px-per-character metric,
the action `"hi reallylongword"` wraps; the second word alone exceeds the
available width yet is emitted as its own untruncated line — its 10-char
plus ellipsis form never appears. -/
theorem c6_action_truncation_counterexample :
    (generate_quest_badge envChar30 [] argsMidLong).1 = .ok (some renderMidLong) ∧
    renderMidLong.maxActionWidth < envChar30.textlength bodyFont argsMidLong.action ∧
    renderMidLong.maxActionWidth < envChar30.textlength bodyFont "reallylongword" ∧
    renderMidLong.actionLines.map Prod.fst = ["hi", "reallylongword"] ∧
    ("reallylong" ++ "..." : String) ∉ renderMidLong.actionLines.map Prod.fst :=
  ⟨by with_unfolding_all rfl, by with_unfolding_all decide, by with_unfolding_all decide,
   by with_unfolding_all decide, by with_unfolding_all decide⟩

/-- C6 amended: when the measured action width exceeds the available width
left of the points pill, the action is word-wrapped at 0.8 times the body
font size (20.8 px) per line; the hard 10-character-plus-ellipsis
truncation applies only when the FIRST word of the action alone exceeds the
available width (the current line being empty), in which case it is the
sole output line and all later words are dropped; when the first word fits,
no truncation ever happens and every word — including a later word wider
than the available width, emitted as its own overlong line — is rendered
in full.  The wrap never raises. -/
theorem c6_action_wrap_amended (env : Env) (st : Store) (a : Args) (r : Render)
    (h : (generate_quest_badge env st a).1 = .ok (some r))
    (hwrap : r.maxActionWidth < env.textlength bodyFont a.action) :
    r.actionLines = linesWithYs
      (wrapAction (env.textlength bodyFont) r.maxActionWidth (pySplitWs a.action))
      (r.infoY + r.actionYOffset) (26 * (4 / 5)) ∧
    (∀ w ws2, pySplitWs a.action = w :: ws2 →
      ¬ env.textlength bodyFont w ≤ r.maxActionWidth →
      r.actionLines.map Prod.fst = [String.mk (w.data.take 10) ++ "..."]) ∧
    (∀ w ws2, pySplitWs a.action = w :: ws2 →
      env.textlength bodyFont w ≤ r.maxActionWidth →
      pyJoin " " (r.actionLines.map Prod.fst) = pyJoin " " (pySplitWs a.action)) := by
  obtain ⟨_, r0, hl, hr⟩ := gqb_ok_some_elim h
  obtain ⟨p, _, hr0⟩ := gqbLayout_render hl
  have hmw : r.maxActionWidth = r0.maxActionWidth := by rw [hr]
  have hal : r.actionLines = r0.actionLines := by rw [hr]
  have hio : r.infoY = r0.infoY := by rw [hr]
  have hyo : r.actionYOffset = r0.actionYOffset := by rw [hr]
  rw [hmw] at hwrap
  rw [hr0] at hwrap
  have hact := ((layoutRest_action env a (deriveDisplayId env a.quest_id) p.1 p.2).1 hwrap).1
  have hlines : r.actionLines = linesWithYs
      (wrapAction (env.textlength bodyFont) r.maxActionWidth (pySplitWs a.action))
      (r.infoY + r.actionYOffset) (26 * (4 / 5)) := by
    rw [hal, hr0, hact, hmw, hr0, hio, hr0, hyo, hr0]
  refine ⟨hlines, ?_, ?_⟩
  · intro w ws2 hsplit hlong
    rw [hlines, linesWithYs_map_fst, hsplit]
    rw [wrapAction_first_long (env.textlength bodyFont) r.maxActionWidth w ws2 hlong]
  · intro w ws2 hsplit hfit
    rw [hlines, linesWithYs_map_fst, hsplit,
      wrapAction_first_fits (env.textlength bodyFont) r.maxActionWidth w ws2 hfit]
    refine wrapActionAux_join (env.textlength bodyFont) r.maxActionWidth ws2 w ?_ ?_
    · refine ne_empty_of_data_ne_nil ?_
      refine (pySplitWs_words_clean a.action w ?_).1
      rw [hsplit]
      exact List.mem_cons_self w ws2
    · intro v hv
      refine ne_empty_of_data_ne_nil ?_
      refine (pySplitWs_words_clean a.action v ?_).1
      rw [hsplit]
      exact List.mem_cons_of_mem w hv

/-- Witness for the amended C6: the concrete wrapped action keeps all its
words (the overlong second word is emitted in full, nothing truncated). -/
theorem c6_action_wrap_amended_witness :
    renderMidLong.actionLines = linesWithYs
      (wrapAction (envChar30.textlength bodyFont) renderMidLong.maxActionWidth
        (pySplitWs argsMidLong.action))
      (renderMidLong.infoY + renderMidLong.actionYOffset) (26 * (4 / 5)) ∧
    pyJoin " " (renderMidLong.actionLines.map Prod.fst)
      = pyJoin " " (pySplitWs argsMidLong.action) :=
  ⟨(c6_action_wrap_amended envChar30 [] argsMidLong renderMidLong
      (by with_unfolding_all rfl) (by with_unfolding_all decide)).1,
   (c6_action_wrap_amended envChar30 [] argsMidLong renderMidLong
      (by with_unfolding_all rfl) (by with_unfolding_all decide)).2.2 "hi" ["reallylongword"]
      (by with_unfolding_all decide) (by with_unfolding_all decide)⟩

/-- C7 counterexample: with a single-line action, the deadline row sits at
the fixed `info_y + 40` (here 360), not 10 px below the end of the action
block (which would be 322.25 + 20.8 + 10 = 353.05), so the 10 px anchoring
does not hold for every action string. -/
theorem c7_deadline_gap_counterexample :
    (generate_quest_badge envBbox [] argsSimple).1 = .ok (some renderBbox) ∧
    ¬ renderBbox.maxActionWidth < envBbox.textlength bodyFont argsSimple.action ∧
    renderBbox.actionLines = [(argsSimple.action, 1289 / 4)] ∧
    renderBbox.deadlineY = 360 ∧
    renderBbox.deadlineY ≠ 1289 / 4 + 26 * (4 / 5) + 10 :=
  ⟨by with_unfolding_all rfl, by norm_num [renderBbox, envBbox, baseEnv],
   by rfl, by rfl, by norm_num [renderBbox]⟩

/-- C7 amended: only in the wrap branch is the deadline row anchored 10 px
below the end of the multi-line action block (the y cursor after the last
wrapped line); when the action fits on a single line the deadline row sits
at the fixed `info_y + 40`, independent of where the action line ended. -/
theorem c7_deadline_anchor_amended (env : Env) (st : Store) (a : Args) (r : Render)
    (h : (generate_quest_badge env st a).1 = .ok (some r)) :
    (r.maxActionWidth < env.textlength bodyFont a.action →
      r.deadlineY = r.infoY + r.actionYOffset + 26 * (4 / 5) *
        ((wrapAction (env.textlength bodyFont) r.maxActionWidth
          (pySplitWs a.action)).length : ℚ) + 10) ∧
    (¬ r.maxActionWidth < env.textlength bodyFont a.action →
      r.deadlineY = r.infoY + 40) := by
  obtain ⟨_, r0, hl, hr⟩ := gqb_ok_some_elim h
  obtain ⟨p, _, hr0⟩ := gqbLayout_render hl
  have hmw : r.maxActionWidth = r0.maxActionWidth := by rw [hr]
  have hdy : r.deadlineY = r0.deadlineY := by rw [hr]
  have hio : r.infoY = r0.infoY := by rw [hr]
  have hyo : r.actionYOffset = r0.actionYOffset := by rw [hr]
  constructor
  · intro hwrap
    rw [hmw, hr0] at hwrap
    have hd := ((layoutRest_action env a (deriveDisplayId env a.quest_id) p.1 p.2).1 hwrap).2
    rw [hdy, hr0, hd, hmw, hr0, hio, hr0, hyo, hr0]
  · intro hfits
    rw [hmw, hr0] at hfits
    have hd := ((layoutRest_action env a (deriveDisplayId env a.quest_id) p.1 p.2).2 hfits).2
    rw [hdy, hr0, hd, hio, hr0]

theorem cacheLookup_not_key {fs : String → LoadRes} {cache : IconCache}
    (hwf : WellFormedCache fs cache) {k : String} (hk : k ∉ categoryKeys) :
    cacheLookup cache k = none := by
  unfold cacheLookup
  cases hf : cache.find? (fun p => p.1 = k) with
  | none => rfl
  | some p =>
    exfalso
    have hpk : p.1 = k := by
      have := List.find?_some hf
      simpa using this
    have hmem := List.mem_of_find?_eq_some hf
    exact hk (hpk ▸ (hwf p hmem).1)

theorem cacheLookup_cons_ne {cache : IconCache} {k k2 : String} {img : PILImage}
    (h : k2 ≠ k) : cacheLookup ((k2, img) :: cache) k = cacheLookup cache k := by
  simp [cacheLookup, List.find?, h]

theorem cacheLookup_cons_self (cache : IconCache) (k : String) (img : PILImage) :
    cacheLookup ((k, img) :: cache) k = some img := by
  simp [cacheLookup, List.find?]

theorem wellFormedCache_insert {fs : String → LoadRes} {cache : IconCache}
    (hwf : WellFormedCache fs cache) {c : String} {raw : PILImage}
    (hck : c ∈ categoryKeys) (hraw : fs (iconPath c) = .ok raw) :
    WellFormedCache fs ((c, convertRGBA raw) :: cache) := by
  intro q hq
  rcases List.mem_cons.mp hq with rfl | hq
  · exact ⟨hck, raw, hraw, rfl⟩
  · exact hwf q hq

theorem get_icon_default_cases (fs : String → LoadRes) (cache : IconCache) :
    (∃ img, cacheLookup cache "default" = some img ∧
      get_icon_default fs cache = (some img, cache)) ∨
    (cacheLookup cache "default" = none ∧ ∃ raw, fs (iconPath "default") = .ok raw ∧
      get_icon_default fs cache
        = (some (convertRGBA raw), ("default", convertRGBA raw) :: cache)) ∨
    (cacheLookup cache "default" = none ∧ (fs (iconPath "default")).isOk = false ∧
      get_icon_default fs cache = (none, cache)) := by
  unfold get_icon_default
  cases hl : cacheLookup cache "default" with
  | some img => exact .inl ⟨img, rfl, rfl⟩
  | none =>
    cases hfs : fs (iconPath "default") with
    | ok raw => exact .inr (.inl ⟨rfl, raw, rfl, rfl⟩)
    | missing => exact .inr (.inr ⟨rfl, by simp [LoadRes.isOk], rfl⟩)
    | raises => exact .inr (.inr ⟨rfl, by simp [LoadRes.isOk], rfl⟩)

theorem get_icon_cases (fs : String → LoadRes) (cache : IconCache) (cat : String) :
    (∃ img, cacheLookup cache (if categoryKeys.contains cat then cat else "default") = some img ∧
      get_icon_by_category fs cache cat = (some img, cache)) ∨
    (cacheLookup cache (if categoryKeys.contains cat then cat else "default") = none ∧
      ∃ raw, fs (iconPath (if categoryKeys.contains cat then cat else "default")) = .ok raw ∧
      get_icon_by_category fs cache cat
        = (some (convertRGBA raw),
           ((if categoryKeys.contains cat then cat else "default"), convertRGBA raw) :: cache)) ∨
    (cacheLookup cache (if categoryKeys.contains cat then cat else "default") = none ∧
      (fs (iconPath (if categoryKeys.contains cat then cat else "default"))).isOk = false ∧
      (if categoryKeys.contains cat then cat else "default") = "default" ∧
      get_icon_by_category fs cache cat = (none, cache)) ∨
    (cacheLookup cache (if categoryKeys.contains cat then cat else "default") = none ∧
      (fs (iconPath (if categoryKeys.contains cat then cat else "default"))).isOk = false ∧
      (if categoryKeys.contains cat then cat else "default") ≠ "default" ∧
      get_icon_by_category fs cache cat = get_icon_default fs cache) := by
  have hbody : get_icon_by_category fs cache cat =
      (match cacheLookup cache (if categoryKeys.contains cat then cat else "default") with
       | some img => (some img, cache)
       | none =>
         match fs (iconPath (if categoryKeys.contains cat then cat else "default")) with
         | LoadRes.ok raw =>
           (some (convertRGBA raw),
            ((if categoryKeys.contains cat then cat else "default"), convertRGBA raw) :: cache)
         | _ =>
           if (if categoryKeys.contains cat then cat else "default") = "default"
           then (none, cache) else get_icon_default fs cache) := rfl
  rw [hbody]
  cases hl : cacheLookup cache (if categoryKeys.contains cat then cat else "default") with
  | some img => exact .inl ⟨img, rfl, rfl⟩
  | none =>
    cases hfs : fs (iconPath (if categoryKeys.contains cat then cat else "default")) with
    | ok raw => exact .inr (.inl ⟨rfl, raw, rfl, rfl⟩)
    | missing =>
      by_cases hd : (if categoryKeys.contains cat then cat else "default") = "default"
      · exact .inr (.inr (.inl ⟨rfl, by simp [LoadRes.isOk], hd, by rw [if_pos hd]⟩))
      · exact .inr (.inr (.inr ⟨rfl, by simp [LoadRes.isOk], hd, by rw [if_neg hd]⟩))
    | raises =>
      by_cases hd : (if categoryKeys.contains cat then cat else "default") = "default"
      · exact .inr (.inr (.inl ⟨rfl, by simp [LoadRes.isOk], hd, by rw [if_pos hd]⟩))
      · exact .inr (.inr (.inr ⟨rfl, by simp [LoadRes.isOk], hd, by rw [if_neg hd]⟩))

/-- C9: starting from a well-formed cache, `get_icon_by_category` keeps the
cache well formed — every entry maps a known category key to the RGBA
conversion of a successfully loaded icon file; any new entry is backed by a
successful load and is in RGBA mode; an unknown category is never cached
under its own key (its icon goes under `default`); and a failed load
inserts nothing under the attempted key, so a later call retries the
filesystem. -/
theorem c9_icon_cache_invariant (fs : String → LoadRes) (cache : IconCache) (cat : String)
    (hwf : WellFormedCache fs cache) :
    WellFormedCache fs (get_icon_by_category fs cache cat).2 ∧
    (∀ q ∈ (get_icon_by_category fs cache cat).2, q ∈ cache ∨
      (q.1 ∈ categoryKeys ∧ ∃ raw, fs (iconPath q.1) = .ok raw ∧ q.2 = convertRGBA raw ∧
        q.2.mode = "RGBA")) ∧
    (cat ∉ categoryKeys → cacheLookup (get_icon_by_category fs cache cat).2 cat = none) ∧
    (cacheLookup cache (if categoryKeys.contains cat then cat else "default") = none →
      (fs (iconPath (if categoryKeys.contains cat then cat else "default"))).isOk = false →
      cacheLookup (get_icon_by_category fs cache cat).2
        (if categoryKeys.contains cat then cat else "default") = none) := by
  have hck : (if categoryKeys.contains cat then cat else "default") ∈ categoryKeys := by
    split
    · rename_i hin
      simpa using hin
    · decide
  have hcne : cat ∉ categoryKeys → (if categoryKeys.contains cat then cat else "default")
      = "default" := by
    intro hni
    have hcon : categoryKeys.contains cat = false := by simpa using hni
    rw [hcon]
    simp
  rcases get_icon_cases fs cache cat with
    ⟨img, hl, heq⟩ | ⟨hl, raw, hraw, heq⟩ | ⟨hl, hnok, hdef, heq⟩ | ⟨hl, hnok, hndef, heqD⟩
  · rw [heq]
    exact ⟨hwf, fun q hq => .inl hq,
      fun hni => cacheLookup_not_key hwf hni,
      fun h1 _ => h1⟩
  · rw [heq]
    refine ⟨wellFormedCache_insert hwf hck hraw, ?_, ?_, ?_⟩
    · intro q hq
      rcases List.mem_cons.mp hq with rfl | hq
      · exact .inr ⟨hck, raw, hraw, rfl, rfl⟩
      · exact .inl hq
    · intro hni
      rw [hcne hni] at hck ⊢
      have hne : cat ≠ "default" := fun he => hni (he ▸ hck)
      rw [cacheLookup_cons_ne (Ne.symm hne)]
      exact cacheLookup_not_key hwf hni
    · intro _ h2
      rw [hraw] at h2
      simp [LoadRes.isOk] at h2
  · rw [heq]
    exact ⟨hwf, fun q hq => .inl hq,
      fun hni => cacheLookup_not_key hwf hni,
      fun h1 _ => h1⟩
  · rcases get_icon_default_cases fs cache with
      ⟨img, hld, heq2⟩ | ⟨hld, raw2, hraw2, heq2⟩ | ⟨hld, hnok2, heq2⟩
    · rw [heqD, heq2]
      exact ⟨hwf, fun q hq => .inl hq,
        fun hni => cacheLookup_not_key hwf hni,
        fun h1 _ => h1⟩
    · rw [heqD, heq2]
      refine ⟨wellFormedCache_insert hwf (by decide) hraw2, ?_, ?_, ?_⟩
      · intro q hq
        rcases List.mem_cons.mp hq with rfl | hq
        · exact .inr ⟨(by decide : ("default" : String) ∈ categoryKeys), raw2, hraw2, rfl, rfl⟩
        · exact .inl hq
      · intro hni
        exact absurd (hcne hni) hndef
      · intro h1 _
        rw [cacheLookup_cons_ne (Ne.symm hndef)]
        exact h1
    · rw [heqD, heq2]
      exact ⟨hwf, fun q hq => .inl hq,
        fun hni => cacheLookup_not_key hwf hni,
        fun h1 _ => h1⟩

/-- Witness for C9: from the empty cache with an entirely missing icon
directory, a call for an unknown category leaves nothing cached under that
category. -/
theorem c9_icon_cache_invariant_witness :
    cacheLookup (get_icon_by_category (fun _ => LoadRes.missing) [] "Unknown").2 "Unknown"
      = none :=
  (c9_icon_cache_invariant (fun _ => LoadRes.missing) [] "Unknown"
    (by intro q hq; cases hq)).2.2.1 (by decide)

theorem store_set_fresh_get (st st1 : Store) (img1 img2 : PILImage) (j : ℕ)
    (hj : j < st.length) (hpre : st1.get? j = st.get? j) (hlen : st.length ≤ st1.length) :
    ((st1 ++ [img1]).set st1.length img2).get? j = st.get? j ∧
    st.length ≤ ((st1 ++ [img1]).set st1.length img2).length := by
  have hj1 : j < st1.length := lt_of_lt_of_le hj hlen
  constructor
  · rw [List.get?_set_ne _ _ (by omega), List.get?_append hj1, hpre]
  · rw [List.length_set, List.length_append]
    omega

theorem placeIconBlock_store (env : Env) (st : Store) (ref : ℕ) (bw bx bb : ℚ) (j : ℕ)
    (hj : j < st.length) :
    (placeIconBlock env st ref bw bx bb).1.get? j = st.get? j ∧
    st.length ≤ (placeIconBlock env st ref bw bx bb).1.length := by
  unfold placeIconBlock
  split
  · exact ⟨rfl, le_refl _⟩
  · cases hg : st.get? ref with
    | none => exact ⟨rfl, le_refl _⟩
    | some img0 =>
      by_cases hm : img0.mode = "RGBA"
      · simp only [if_pos hm]
        exact store_set_fresh_get st st _ _ j hj rfl (le_refl _)
      · simp only [if_neg hm]
        refine store_set_fresh_get st (st ++ [convertRGBA img0]) _ _ j hj ?_ ?_
        · exact List.get?_append hj
        · rw [List.length_append]
          omega

/-- C10: `generate_quest_badge` never mutates any pre-existing image in the
store — in particular not the `icon_image` argument nor the shared image
held by the module-level icon cache: the icon is converted to RGBA into a
fresh image when needed and only a fresh copy is resized in place, so every
store index that existed before the call still holds the identical image
(same mode, size and pixel content) after it. -/
theorem c10_icon_argument_not_mutated (env : Env) (st : Store) (a : Args) (j : ℕ)
    (hj : j < st.length) :
    (generate_quest_badge env st a).2.get? j = st.get? j ∧
    st.length ≤ (generate_quest_badge env st a).2.length := by
  unfold generate_quest_badge
  rcases hb : gqbBody env st a (deriveDisplayId env a.quest_id) with ⟨x, st'⟩
  have hst : st'.get? j = st.get? j ∧ st.length ≤ st'.length := by
    unfold gqbBody at hb
    split at hb
    · cases hb
      exact ⟨rfl, le_refl _⟩
    · cases hl : gqbLayout env a (deriveDisplayId env a.quest_id) with
      | error e =>
        rw [hl] at hb
        cases hb
        exact ⟨rfl, le_refl _⟩
      | ok r0 =>
        rw [hl] at hb
        cases hb
        unfold iconOutcome
        cases a.icon_image with
        | none => exact ⟨rfl, le_refl _⟩
        | some ref => exact placeIconBlock_store env st ref _ _ _ j hj

  cases x with
  | ok r => simpa [hb] using hst
  | error e => simpa [hb] using hst

/-- Witness for C10: a concrete call with a cached icon image leaves the
original image in the store untouched. -/
theorem c10_icon_argument_not_mutated_witness :
    (generate_quest_badge baseEnv [⟨"RGB", 200, 100, 5⟩]
        { argsSimple with icon_image := some 0 }).2.get? 0
      = some ⟨"RGB", 200, 100, 5⟩ ∧
    1 ≤ (generate_quest_badge baseEnv [⟨"RGB", 200, 100, 5⟩]
        { argsSimple with icon_image := some 0 }).2.length := by
  have h := c10_icon_argument_not_mutated baseEnv [⟨"RGB", 200, 100, 5⟩]
    { argsSimple with icon_image := some 0 } 0 (by decide)
  exact ⟨h.1, h.2⟩

/-- Witness for the amended C7 at both concrete branches: the wrapped
action run anchors the deadline 10 px below the two-line block, and the
single-line run uses the fixed `info_y + 40`. -/
theorem c7_deadline_anchor_amended_witness :
    renderMidLong.deadlineY = renderMidLong.infoY + renderMidLong.actionYOffset
      + 26 * (4 / 5) * ((wrapAction (envChar30.textlength bodyFont)
          renderMidLong.maxActionWidth (pySplitWs argsMidLong.action)).length : ℚ) + 10 ∧
    renderBbox.deadlineY = renderBbox.infoY + 40 :=
  ⟨(c7_deadline_anchor_amended envChar30 [] argsMidLong renderMidLong
      (by with_unfolding_all rfl)).1 (by with_unfolding_all decide),
   (c7_deadline_anchor_amended envBbox [] argsSimple renderBbox
      (by with_unfolding_all rfl)).2 (by with_unfolding_all decide)⟩

end Badge
